import Mathlib

/-!
Verification development for the Root-Server-Analysis repository.

The two analysis modules are embedded shallowly:

* `CompareNsid` models `compare_nsid.py`: the age-category bucketing
  (`categorize_delta`), the precomputed comparison table joining site records
  with the first-seen registry, and the upload-comparison query
  (`compare_uploaded_nsid_column`).
* `RootServerAnalyzer` models `root_server_analyzer.py`: the monthly slider
  index (`months`) and the aggregation pipeline inside `update_chart`
  (country universe, filtering, flat counts, by-source breakdown,
  sorting and limiting).

Machine dates are embedded as explicit year/month/day triples with the
lexicographic order Python date comparison uses; the float division
`abs(delta_days)/30.0` is embedded as exact rational division (at every
comparison the code performs, the float and the rational land on the same
side of the boundary for the integer inputs involved).
-/

namespace CompareNsid

/-- `categorize_delta` from `compare_nsid.py`: `months = abs(delta_days)/30.0`
followed by the if/elif chain over `months`. -/
def categorize_delta (delta_days : Int) : String :=
  let months : ℚ := (delta_days.natAbs : ℚ) / 30
  if 12 < months then "🔴 >1 year"
  else if 6 < months then "🟠 6–12 months"
  else if 4 < months then "🟡 4–6 months"
  else if 2 < months then "🟢 2–4 months"
  else if 0 ≤ months then "✅ 0–2 months"
  else "❗ Negative"

/-- A site record as `compare_nsid.py` uses it: its identifier list, optional
country, the date part of `Created_dt` (embedded as a day number, so that
subtracting two dates yields the signed day delta), and the source file tag. -/
structure Site where
  identifiers : List String
  country : Option String
  created : Int
  source : String
deriving DecidableEq

/-- One row of `comparison_df`. -/
structure ComparisonRow where
  nsid : String
  country : String
  root_created : Int
  first_seen : Int
  delta : Int
  age_category : String
  source : String
deriving DecidableEq

/-- The precomputed comparison table: for every site, for every identifier of
that site that occurs in `first_seen_data`, one row with
`delta = root_created - first_seen` and its age category. -/
def comparison_rows (sites : List Site) (first_seen_data : List (String × Int)) :
    List ComparisonRow :=
  sites.flatMap (fun site =>
    site.identifiers.filterMap (fun nsid =>
      (first_seen_data.lookup nsid).map (fun fs =>
        { nsid := nsid
          country := site.country.getD "Unknown"
          root_created := site.created
          first_seen := fs
          delta := site.created - fs
          age_category := categorize_delta (site.created - fs)
          source := site.source })))

/-- The identifiers that actually appear in the comparison table
(`set(comparison_df["NSID"])`); a subset of the registry keys. -/
def covered_nsids (rows : List ComparisonRow) : Finset String :=
  (rows.map (fun r => r.nsid)).toFinset

/-- The query phase of `compare_uploaded_nsid_column`: the matched rows
(rows whose NSID is in the uploaded set, sorted by the delta column) and the
missing list `sorted(nsids - set(comparison_df["NSID"]))`. -/
def compare_uploaded (rows : List ComparisonRow) (nsids : Finset String) :
    List ComparisonRow × List String :=
  (List.mergeSort (rows.filter (fun r => decide (r.nsid ∈ nsids)))
      (fun a b => decide (a.delta ≤ b.delta)),
   (nsids \ covered_nsids rows).sort (· ≤ ·))

end CompareNsid

namespace RootServerAnalyzer

/-- A calendar date, compared the way Python compares `datetime.date`:
lexicographically on (year, month, day). -/
structure Date where
  year : Nat
  month : Nat
  day : Nat
deriving DecidableEq

/-- Python date comparison `a <= b`. -/
def dateLeB (a b : Date) : Bool :=
  decide (a.year < b.year) ||
    (decide (a.year = b.year) &&
      (decide (a.month < b.month) ||
        (decide (a.month = b.month) && decide (a.day ≤ b.day))))

/-- `min` of two dates, as Python `min` picks it. -/
def dateMin (a b : Date) : Date := if dateLeB a b then a else b

/-- `max` of two dates, as Python `max` picks it. -/
def dateMax (a b : Date) : Date := if dateLeB a b then b else a

/-- `.replace(day=1)`. -/
def monthStart (d : Date) : Date := { d with day := 1 }

/-- `.replace(day=28)`, the cutoff approximation used by `update_chart`. -/
def withDay28 (d : Date) : Date := { d with day := 28 }

/-- `relativedelta(months=1)` applied to a date (the code only ever applies it
to first-of-month dates, where no day clamping can occur). -/
def addOneMonth (d : Date) : Date :=
  if d.month = 12 then { year := d.year + 1, month := 1, day := d.day }
  else { d with month := d.month + 1 }

/-- Months elapsed since year 0, used only as a termination measure for the
month-stepping loop. -/
def monthIdx (d : Date) : Nat := 12 * d.year + d.month

/-- The `while current <= max_created` loop body, with explicit fuel; the fuel
chosen in `monthsFrom` is always enough for the loop to run to completion. -/
def monthsFromFuel : Nat → Date → Date → List Date
  | 0, _, _ => []
  | fuel + 1, current, maxCreated =>
    if dateLeB current maxCreated then
      current :: monthsFromFuel fuel (addOneMonth current) maxCreated
    else []

/-- The loop `while current <= max_created: months.append(current);
current += relativedelta(months=1)`. -/
def monthsFrom (current maxCreated : Date) : List Date :=
  monthsFromFuel (monthIdx maxCreated + 1 - monthIdx current) current maxCreated

/-- The fixed lower bound `date(2023, 1, 1)`. -/
def floor_date : Date := ⟨2023, 1, 1⟩

/-- A site record as `root_server_analyzer.py` uses it: source file tag,
optional country, creation date (`Created_dt`; its time-of-day component never
influences any computation modelled here, since the cutoff compares
`.date()` and the month index only uses month starts). -/
structure Site where
  source : String
  country : Option String
  created : Date
deriving DecidableEq

/-- `min(site["Created_dt"] for site in all_sites).date().replace(day=1)`;
`none` when there are no sites (where the script itself would fail). -/
def min_created (sites : List Site) : Option Date :=
  match sites.map (fun s => s.created) with
  | [] => none
  | d :: ds => some (monthStart (ds.foldl dateMin d))

/-- The `months` list: first-of-month steps from
`max(min_created, date(2023, 1, 1))` through `max_created = today.replace(day=1)`
inclusive. -/
def months (sites : List Site) (today : Date) : List Date :=
  match min_created sites with
  | none => []
  | some mc => monthsFrom (dateMax mc floor_date) (monthStart today)

/-- Step 2 of `update_chart`: the country universe — the selected countries if
any are chosen, otherwise every country observed on a record of a selected
source; minus the blacklist. -/
def matching_countries (sites : List Site)
    (selected_sources selected_countries blacklisted : List String) :
    Finset String :=
  let base : Finset String :=
    if selected_countries ≠ [] then selected_countries.toFinset
    else (sites.filterMap (fun s =>
      if s.source ∈ selected_sources then s.country else none)).toFinset
  if blacklisted ≠ [] then base \ blacklisted.toFinset else base

/-- `sorted(matching_countries)`. -/
def all_matching_countries (mc : Finset String) : List String :=
  mc.sort (· ≤ ·)

/-- Step 3 of `update_chart` (and the identical recomputation in by-source
mode): records whose source is selected, whose country is in the universe, and
whose creation date is on or before day 28 of the cutoff month. -/
def fully_filtered (sites : List Site) (selected_sources : List String)
    (mc : Finset String) (selected_month : Date) : List Site :=
  sites.filter (fun s =>
    decide (s.source ∈ selected_sources) &&
    (match s.country with
     | some c => decide (c ∈ mc)
     | none => false) &&
    dateLeB s.created (withDay28 selected_month))

/-- Step 4: `Counter(site["Country"] for site in fully_filtered)[c]`. -/
def country_count (l : List Site) (c : String) : Nat :=
  l.countP (fun s => decide (s.country = some c))

/-- Step 5: the flat per-country table, one zero-filled row per universe
country, in country order. -/
def flat_table (sites : List Site)
    (selected_sources selected_countries blacklisted : List String)
    (selected_month : Date) : List (String × Nat) :=
  let mc := matching_countries sites selected_sources selected_countries blacklisted
  let f := fully_filtered sites selected_sources mc selected_month
  (all_matching_countries mc).map (fun c => (c, country_count f c))

/-- Step 6: the `sort_values` comparator — by count, ascending exactly when the
chosen order is `asc`. -/
def cmp_flat (sort_order : String) : (String × Nat) → (String × Nat) → Bool :=
  fun a b => if sort_order = "asc" then decide (a.2 ≤ b.2) else decide (b.2 ≤ a.2)

/-- Step 7: `df.head(limit)` when a positive limit is set. -/
def apply_limit {α : Type} (limit : Option Nat) (l : List α) : List α :=
  match limit with
  | some n => if 0 < n then l.take n else l
  | none => l

/-- A possible output of `sort_values` with comparator `cmp`: some permutation
of the input frame that is ordered by the comparator. The code calls
`sort_values` with the pandas default sort kind (quicksort), which is unstable
and documents no tie order, so the embedding admits every
comparator-respecting permutation of the input rather than fixing one. -/
def is_sort_of (cmp : (String × Nat) → (String × Nat) → Bool)
    (input output : List (String × Nat)) : Prop :=
  output.Perm input ∧ output.Pairwise (fun a b => cmp a b = true)

/-- Step 7 (`df.head(limit)`) applied to whichever sorted frame the library
produced. -/
def flat_result_of (sorted_df : List (String × Nat)) (limit : Option Nat) :
    List (String × Nat) :=
  apply_limit limit sorted_df

/-- By-source mode: `breakdown.get((country, source), 0)`. -/
def breakdown_count (l : List Site) (c s : String) : Nat :=
  l.countP (fun r => decide (r.country = some c) && decide (r.source = s))

/-- By-source mode, pre-limit: one row per (country, source) combination,
zero-filled. The code iterates the `matching_countries` set and then sorts the
frame by (Country, Source); the iteration is embedded directly in sorted
country order. Display labels (`SOURCE_LABELS`) adorn rows for presentation
only; counts are keyed by the raw source tag, which is kept here. -/
def by_source_rows (sites : List Site)
    (selected_sources selected_countries blacklisted : List String)
    (selected_month : Date) : List (String × String × Nat) :=
  let mc := matching_countries sites selected_sources selected_countries blacklisted
  let f := fully_filtered sites selected_sources mc selected_month
  (all_matching_countries mc).flatMap (fun c =>
    selected_sources.map (fun s => (c, s, breakdown_count f c s)))

/-- `df.groupby("Country")["Count"].sum()`: per-country totals of the by-source
rows, in ascending country order (pandas groupby sorts its keys). -/
def country_totals (sites : List Site)
    (selected_sources selected_countries blacklisted : List String)
    (selected_month : Date) : List (String × Nat) :=
  let mc := matching_countries sites selected_sources selected_countries blacklisted
  let rows := by_source_rows sites selected_sources selected_countries
    blacklisted selected_month
  (all_matching_countries mc).map (fun c =>
    (c, ((rows.filter (fun r => decide (r.1 = c))).map (fun r => r.2.2)).sum))

/-- By-source mode limiting, given whichever sorted totals the library
produced: the top `limit` country names are kept
(`country_totals.head(limit).index`) and the rows are filtered to those
countries (`df[df["Country"].isin(top_countries)]`). -/
def by_source_limited_of (rows : List (String × String × Nat))
    (sorted_totals : List (String × Nat)) (limit : Option Nat) :
    List (String × String × Nat) :=
  match limit with
  | some n =>
    if 0 < n then
      rows.filter (fun r => decide (r.1 ∈ (sorted_totals.take n).map Prod.fst))
    else rows
  | none => rows

/-- The ordering the spec words describe for descending queries: count
descending, ties broken by country name ascending. Used as the reference
ordering against which the sorted output is compared. -/
def cmp_desc_name : (String × Nat) → (String × Nat) → Bool :=
  fun a b => decide (b.2 < a.2) || (decide (a.2 = b.2) && decide (a.1 ≤ b.1))

/-- A count table arranged by count descending with name-ascending
tie-breaks. -/
def canonical_desc (t : List (String × Nat)) : List (String × Nat) :=
  t.mergeSort cmp_desc_name

end RootServerAnalyzer

open CompareNsid

/-- C1. The claim says every negative `deltaDays` is bucketed `Negative`.
The code computes `months = abs(delta_days)/30.0 ≥ 0` first, so the
`Negative` branch is unreachable: `categorize_delta (-1)` lands in
`0–2 months`, `categorize_delta (-400)` in `>1 year`, and no input at all
produces the `Negative` category. -/
theorem claim_C1_code_bug :
    categorize_delta (-1) = "✅ 0–2 months" ∧
    categorize_delta (-400) = "🔴 >1 year" ∧
    ∀ d : Int, categorize_delta d ≠ "❗ Negative" := by
  refine ⟨by dsimp only [categorize_delta]; norm_num,
          by dsimp only [categorize_delta]; norm_num, ?_⟩
  intro d
  dsimp only [categorize_delta]
  have hnn : (0 : ℚ) ≤ (d.natAbs : ℚ) / 30 := by positivity
  split_ifs <;> simp_all

/-- C8. The exact boundary inputs 60, 120, 180 and 360 days (2, 4, 6 and 12
months under the 30-day conversion) each land in the lower bucket of their
boundary: every upper boundary is closed and the next bucket opens strictly
above it. -/
theorem claim_C8_boundaries :
    categorize_delta 60 = "✅ 0–2 months" ∧
    categorize_delta 120 = "🟢 2–4 months" ∧
    categorize_delta 180 = "🟡 4–6 months" ∧
    categorize_delta 360 = "🟠 6–12 months" := by
  refine ⟨?_, ?_, ?_, ?_⟩ <;> (dsimp only [categorize_delta]; norm_num)

/-- C10. The age category depends only on the absolute value of `deltaDays`:
the very first step of `categorize_delta` takes `abs(delta_days)`, so the
function is invariant under negation of its argument. -/
theorem claim_C10_abs_symmetric :
    ∀ d : Int, categorize_delta d = categorize_delta (-d) := by
  intro d
  unfold categorize_delta
  rw [Int.natAbs_neg]

/-- C9. The matched-rows output consists of exactly the precomputed comparison
rows whose identifier is in the uploaded set (a permutation of that filtered
list), ordered by `deltaDays` ascending. -/
theorem claim_C9_matched_rows (sites : List Site)
    (first_seen_data : List (String × Int)) (uploaded : Finset String) :
    (compare_uploaded (comparison_rows sites first_seen_data) uploaded).1.Perm
      ((comparison_rows sites first_seen_data).filter
        (fun r => decide (r.nsid ∈ uploaded))) ∧
    (compare_uploaded (comparison_rows sites first_seen_data) uploaded).1.Pairwise
      (fun a b => a.delta ≤ b.delta) := by
  constructor
  · exact List.mergeSort_perm _ _
  · have h := @List.sorted_mergeSort ComparisonRow
      (fun a b : ComparisonRow => decide (a.delta ≤ b.delta))
      (fun a b c hab hbc => by
        simp only [decide_eq_true_eq] at *
        omega)
      (fun a b => by
        simp only [Bool.or_eq_true, decide_eq_true_eq]
        omega)
      ((comparison_rows sites first_seen_data).filter
        (fun r => decide (r.nsid ∈ uploaded)))
    exact h.imp (fun hab => by simpa using hab)

/-- C3. The missing list is exactly `uploaded \ coveredIdentifiers` (the
identifiers occurring in the precomputed comparison table), sorted; in
particular an uploaded identifier that is a key of the first-seen registry but
occurs on no site record is reported missing. -/
theorem claim_C3_missing (sites : List Site)
    (first_seen_data : List (String × Int)) (uploaded : Finset String)
    (x : String) :
    (∀ y, y ∈ (compare_uploaded (comparison_rows sites first_seen_data) uploaded).2 ↔
        y ∈ uploaded ∧ y ∉ covered_nsids (comparison_rows sites first_seen_data)) ∧
    (compare_uploaded (comparison_rows sites first_seen_data) uploaded).2.Pairwise (· ≤ ·) ∧
    (x ∈ uploaded → (first_seen_data.lookup x).isSome →
      (∀ site ∈ sites, x ∉ site.identifiers) →
      x ∈ (compare_uploaded (comparison_rows sites first_seen_data) uploaded).2) := by
  refine ⟨?_, ?_, ?_⟩
  · intro y
    simp [compare_uploaded, Finset.mem_sdiff]
  · exact Finset.sort_sorted _ _
  · intro hx _ hnosite
    have hxcov : x ∉ covered_nsids (comparison_rows sites first_seen_data) := by
      intro hmem
      simp only [covered_nsids, List.mem_toFinset, List.mem_map] at hmem
      obtain ⟨r, hr, hrx⟩ := hmem
      simp only [comparison_rows, List.mem_flatMap, List.mem_filterMap] at hr
      obtain ⟨site, hsite, n, hn, hsome⟩ := hr
      rw [Option.map_eq_some'] at hsome
      obtain ⟨fs, hlook, hfr⟩ := hsome
      subst hfr
      exact hnosite site hsite (hrx ▸ hn)
    simp [compare_uploaded, Finset.mem_sdiff, hx, hxcov]

/-- Witness for C3: registry knows `x` and `y`, the single site carries only
`x`, the caller uploads both; `y` is reported missing. -/
theorem claim_C3_missing_witness :
    "y" ∈ (compare_uploaded
      (comparison_rows
        [{ identifiers := ["x"], country := some "DE", created := 100,
           source := "root_a.json" }]
        [("x", 10), ("y", 20)])
      ({"x", "y"} : Finset String)).2 :=
  (claim_C3_missing
    [{ identifiers := ["x"], country := some "DE", created := 100,
       source := "root_a.json" }]
    [("x", 10), ("y", 20)] ({"x", "y"} : Finset String) "y").2.2
    (by decide) (by decide) (by decide)

open RootServerAnalyzer

theorem dateLeB_floor_monthIdx {d : RootServerAnalyzer.Date}
    (h : dateLeB floor_date d = true) : monthIdx floor_date ≤ monthIdx d := by
  simp only [dateLeB, floor_date, monthIdx, Bool.or_eq_true, Bool.and_eq_true,
    decide_eq_true_eq] at *
  omega

/-- C2 counterexample: a single record created 2024-05-15, so its month start
2024-05-01 postdates the floor 2023-01-01; the month index starts at
2024-05-01, not at the floor. -/
theorem claim_C2_counterexample :
    min_created
        [{ source := "root_a.json", country := some "US",
           created := ⟨2024, 5, 15⟩ }] = some ⟨2024, 5, 1⟩ ∧
    dateLeB floor_date ⟨2024, 5, 1⟩ = true ∧
    (⟨2024, 5, 1⟩ : RootServerAnalyzer.Date) ≠ floor_date ∧
    (months
        [{ source := "root_a.json", country := some "US",
           created := ⟨2024, 5, 15⟩ }] ⟨2024, 7, 9⟩).head? =
      some ⟨2024, 5, 1⟩ ∧
    (months
        [{ source := "root_a.json", country := some "US",
           created := ⟨2024, 5, 15⟩ }] ⟨2024, 7, 9⟩).head? ≠
      some floor_date := by
  refine ⟨rfl, rfl, by decide, rfl, by decide⟩

/-- C2, amended: whenever the earliest record month start predates (or equals)
the floor 2023-01-01 and the floor does not lie beyond the current month, the
month index starts at the floor; when the earliest month postdates the floor
the index instead starts at that earliest month (as the counterexample
shows). -/
theorem claim_C2_amended (sites : List RootServerAnalyzer.Site)
    (today mc : RootServerAnalyzer.Date)
    (hmin : min_created sites = some mc)
    (hpre : dateLeB mc floor_date = true)
    (htoday : dateLeB floor_date (monthStart today) = true) :
    (months sites today).head? = some floor_date := by
  have hmax : dateMax mc floor_date = floor_date := by
    unfold dateMax
    rw [hpre]
    simp
  have hms : months sites today
      = monthsFrom (dateMax mc floor_date) (monthStart today) := by
    unfold months
    rw [hmin]
  rw [hms, hmax]
  unfold monthsFrom
  have hidx : monthIdx floor_date ≤ monthIdx (monthStart today) :=
    dateLeB_floor_monthIdx htoday
  obtain ⟨k, hk⟩ :
      ∃ k, monthIdx (monthStart today) + 1 - monthIdx floor_date = k + 1 :=
    ⟨monthIdx (monthStart today) - monthIdx floor_date, by omega⟩
  rw [hk]
  simp [monthsFromFuel, htoday]

/-- Witness for C2 (amended): one record created 2022-03-10, earliest month
2022-03-01 predates the floor, today 2024-07-09; the index starts at
2023-01-01. -/
theorem claim_C2_amended_witness :
    (months
        [{ source := "root_a.json", country := some "US",
           created := ⟨2022, 3, 10⟩ }] ⟨2024, 7, 9⟩).head? =
      some floor_date :=
  claim_C2_amended
    [{ source := "root_a.json", country := some "US",
       created := ⟨2022, 3, 10⟩ }] ⟨2024, 7, 9⟩ ⟨2022, 3, 1⟩
    rfl (by decide) (by decide)

theorem country_match_iff (r : RootServerAnalyzer.Site) (mc : Finset String) :
    ((match r.country with
      | some c => decide (c ∈ mc)
      | none => false) = true) ↔ ∃ c, r.country = some c ∧ c ∈ mc := by
  cases h : r.country <;> simp [h]

/-- C7. A record is counted exactly when its source is selected, its country
is in the resolved universe, and its creation date is at most day 28 of the
cutoff month; consequently a record created after day 28 of the cutoff month
itself is excluded even though it falls inside that calendar month. -/
theorem claim_C7_cutoff (sites : List RootServerAnalyzer.Site)
    (selected_sources selected_countries blacklisted : List String)
    (selected_month : RootServerAnalyzer.Date) :
    (∀ r, r ∈ fully_filtered sites selected_sources
        (matching_countries sites selected_sources selected_countries blacklisted)
        selected_month ↔
      r ∈ sites ∧ r.source ∈ selected_sources ∧
      (∃ c, r.country = some c ∧
        c ∈ matching_countries sites selected_sources selected_countries
          blacklisted) ∧
      dateLeB r.created (withDay28 selected_month) = true) ∧
    (∀ r ∈ sites, r.created.year = selected_month.year →
      r.created.month = selected_month.month → 28 < r.created.day →
      r ∉ fully_filtered sites selected_sources
        (matching_countries sites selected_sources selected_countries blacklisted)
        selected_month) := by
  have hmem : ∀ r, r ∈ fully_filtered sites selected_sources
      (matching_countries sites selected_sources selected_countries blacklisted)
      selected_month ↔
      r ∈ sites ∧ r.source ∈ selected_sources ∧
      (∃ c, r.country = some c ∧
        c ∈ matching_countries sites selected_sources selected_countries
          blacklisted) ∧
      dateLeB r.created (withDay28 selected_month) = true := by
    intro r
    simp only [fully_filtered, List.mem_filter, Bool.and_eq_true,
      decide_eq_true_eq, country_match_iff]
    tauto
  refine ⟨hmem, ?_⟩
  intro r _ hy hm hd hin
  have hcut := ((hmem r).mp hin).2.2.2
  simp only [dateLeB, withDay28, hy, hm, Bool.or_eq_true, Bool.and_eq_true,
    decide_eq_true_eq] at hcut
  omega

/-- Witness for C7: a record created 2024-03-29 is not counted for the cutoff
month 2024-03, even though it lies inside that calendar month. -/
theorem claim_C7_cutoff_witness :
    ({ source := "root_a.json", country := some "US",
       created := ⟨2024, 3, 29⟩ } : RootServerAnalyzer.Site) ∉
      fully_filtered
        [{ source := "root_a.json", country := some "US",
           created := ⟨2024, 3, 29⟩ }]
        ["root_a.json"]
        (matching_countries
          [{ source := "root_a.json", country := some "US",
             created := ⟨2024, 3, 29⟩ }]
          ["root_a.json"] [] [])
        ⟨2024, 3, 1⟩ :=
  (claim_C7_cutoff
    [{ source := "root_a.json", country := some "US",
       created := ⟨2024, 3, 29⟩ }]
    ["root_a.json"] [] [] ⟨2024, 3, 1⟩).2
    { source := "root_a.json", country := some "US",
      created := ⟨2024, 3, 29⟩ }
    (by decide) rfl rfl (by decide)

theorem mem_fully_filtered {sites : List RootServerAnalyzer.Site}
    {ss : List String} {mc : Finset String} {sm : RootServerAnalyzer.Date}
    {r : RootServerAnalyzer.Site} :
    r ∈ fully_filtered sites ss mc sm ↔
      r ∈ sites ∧ r.source ∈ ss ∧ (∃ c, r.country = some c ∧ c ∈ mc) ∧
      dateLeB r.created (withDay28 sm) = true := by
  simp only [fully_filtered, List.mem_filter, Bool.and_eq_true,
    decide_eq_true_eq, country_match_iff]
  tauto

theorem sum_map_add_distrib {κ : Type} (ks : List κ) (g h : κ → Nat) :
    (ks.map (fun k => g k + h k)).sum = (ks.map g).sum + (ks.map h).sum := by
  induction ks with
  | nil => simp
  | cons k ks ih => simp only [List.map_cons, List.sum_cons, ih]; omega

theorem sum_map_ite_single {κ : Type} [DecidableEq κ] {ks : List κ} {k0 : κ}
    (hnd : ks.Nodup) (hmem : k0 ∈ ks) :
    (ks.map (fun k => if k0 = k then (1 : Nat) else 0)).sum = 1 := by
  induction ks with
  | nil => cases hmem
  | cons a ks ih =>
    rcases List.mem_cons.mp hmem with rfl | hmem2
    · have hnotin : k0 ∉ ks := (List.nodup_cons.mp hnd).1
      have hz : (ks.map (fun k => if k0 = k then (1 : Nat) else 0)).sum = 0 := by
        apply List.sum_eq_zero
        intro x hx
        simp only [List.mem_map] at hx
        obtain ⟨k, hk, hval⟩ := hx
        by_cases hkk : k0 = k
        · exact absurd (hkk ▸ hk) hnotin
        · simpa [hkk] using hval.symm
      simp [hz]
    · have hne : k0 ≠ a := by
        rintro rfl
        exact (List.nodup_cons.mp hnd).1 hmem2
      simp [hne, ih (List.nodup_cons.mp hnd).2 hmem2]

theorem sum_countP_partition {α κ : Type} [DecidableEq κ] (ks : List κ)
    (f : α → Option κ) (hnd : ks.Nodup) :
    ∀ l : List α, (∀ a ∈ l, ∃ k, f a = some k ∧ k ∈ ks) →
      (ks.map (fun k => l.countP (fun a => decide (f a = some k)))).sum
        = l.length := by
  intro l
  induction l with
  | nil =>
    intro
    simp
  | cons a l ih =>
    intro hcov
    obtain ⟨k0, hk0, hk0mem⟩ := hcov a (List.mem_cons_self a l)
    have hrest := ih (fun b hb => hcov b (List.mem_cons_of_mem _ hb))
    simp only [List.countP_cons]
    rw [sum_map_add_distrib ks
      (fun k => l.countP (fun x => decide (f x = some k)))
      (fun k => if decide (f a = some k) then 1 else 0)]
    have hone : (ks.map (fun k => if decide (f a = some k) then (1 : Nat) else 0)).sum = 1 := by
      have hsame : (fun k => if decide (f a = some k) then (1 : Nat) else 0)
          = fun k => if k0 = k then (1 : Nat) else 0 := by
        funext k
        simp [hk0]
      rw [hsame]
      exact sum_map_ite_single hnd hk0mem
    rw [hrest, hone]
    simp

/-- C4. The flat-mode table (before sorting and limiting) has exactly one row
per country of the resolved universe, in sorted country order, every count is
nonnegative, and the counts sum to the number of records passing the
source/country/cutoff filter. -/
theorem claim_C4_flat_dense (sites : List RootServerAnalyzer.Site)
    (selected_sources selected_countries blacklisted : List String)
    (selected_month : RootServerAnalyzer.Date) :
    (flat_table sites selected_sources selected_countries blacklisted
        selected_month).map Prod.fst
      = all_matching_countries
        (matching_countries sites selected_sources selected_countries blacklisted) ∧
    ((flat_table sites selected_sources selected_countries blacklisted
        selected_month).map Prod.fst).Nodup ∧
    (∀ c, c ∈ (flat_table sites selected_sources selected_countries blacklisted
        selected_month).map Prod.fst ↔
      c ∈ matching_countries sites selected_sources selected_countries blacklisted) ∧
    (∀ p ∈ flat_table sites selected_sources selected_countries blacklisted
        selected_month, 0 ≤ p.2) ∧
    ((flat_table sites selected_sources selected_countries blacklisted
        selected_month).map Prod.snd).sum
      = (fully_filtered sites selected_sources
          (matching_countries sites selected_sources selected_countries blacklisted)
          selected_month).length := by
  have hkeys : (flat_table sites selected_sources selected_countries blacklisted
      selected_month).map Prod.fst
      = all_matching_countries
        (matching_countries sites selected_sources selected_countries blacklisted) := by
    simp [flat_table, List.map_map, Function.comp_def]
  refine ⟨hkeys, ?_, ?_, ?_, ?_⟩
  · rw [hkeys]
    exact Finset.sort_nodup _ _
  · intro c
    rw [hkeys]
    exact Finset.mem_sort _
  · intro p _
    exact Nat.zero_le _
  · have hvals : (flat_table sites selected_sources selected_countries blacklisted
        selected_month).map Prod.snd
        = (all_matching_countries
            (matching_countries sites selected_sources selected_countries blacklisted)).map
          (fun c =>
            (fully_filtered sites selected_sources
              (matching_countries sites selected_sources selected_countries blacklisted)
              selected_month).countP (fun s => decide (s.country = some c))) := by
      simp [flat_table, List.map_map, Function.comp_def, country_count]
    rw [hvals]
    apply sum_countP_partition _ (fun s : RootServerAnalyzer.Site => s.country)
      (Finset.sort_nodup _ _)
    intro s hs
    obtain ⟨c, hc, hcmem⟩ := (mem_fully_filtered.mp hs).2.2.1
    exact ⟨c, hc, (Finset.mem_sort _).mpr hcmem⟩

theorem filter_flatMap_key {β : Type} (cs : List String)
    (F : String → List (String × β)) (hkey : ∀ c r, r ∈ F c → r.1 = c)
    (hnd : cs.Nodup) {c : String} (hc : c ∈ cs) :
    (cs.flatMap F).filter (fun r => decide (r.1 = c)) = F c := by
  induction cs with
  | nil => cases hc
  | cons a cs ih =>
    simp only [List.flatMap_cons, List.filter_append]
    rcases List.mem_cons.mp hc with rfl | hc2
    · have h1 : (F c).filter (fun r => decide (r.1 = c)) = F c :=
        List.filter_eq_self.mpr (fun r hr => by simp [hkey c r hr])
      have hnotin : c ∉ cs := (List.nodup_cons.mp hnd).1
      have h2 : (cs.flatMap F).filter (fun r => decide (r.1 = c)) = [] := by
        rw [List.filter_eq_nil_iff]
        intro r hr
        simp only [List.mem_flatMap] at hr
        obtain ⟨c2, hc2mem, hrF⟩ := hr
        rw [hkey c2 r hrF]
        simp only [decide_eq_true_eq]
        rintro rfl
        exact hnotin hc2mem
      rw [h1, h2, List.append_nil]
    · have hne : a ≠ c := by
        rintro rfl
        exact (List.nodup_cons.mp hnd).1 hc2
      have h1 : (F a).filter (fun r => decide (r.1 = c)) = [] := by
        rw [List.filter_eq_nil_iff]
        intro r hr
        simp [hkey a r hr, hne]
      rw [h1, List.nil_append]
      exact ih (List.nodup_cons.mp hnd).2 hc2

theorem countP_eq_single {l : List String} (hl : l.Nodup) (s : String) :
    l.countP (fun x => decide (x = s)) = if s ∈ l then 1 else 0 := by
  induction l with
  | nil => simp
  | cons a l ih =>
    rw [List.countP_cons]
    by_cases has : a = s
    · subst has
      have hnotin : a ∉ l := (List.nodup_cons.mp hl).1
      simp [ih (List.nodup_cons.mp hl).2, hnotin]
    · have hsa : ¬s = a := fun h => has h.symm
      simp only [List.mem_cons, decide_eq_true_eq, has, if_false,
        ih (List.nodup_cons.mp hl).2]
      by_cases hs : s ∈ l <;> simp [hs, hsa]

theorem countP_map_pair {ss : List String} (hss : ss.Nodup) (a c s : String) :
    (ss.map (fun s2 => (a, s2))).countP (fun p => decide (p = (c, s)))
      = if a = c ∧ s ∈ ss then 1 else 0 := by
  rw [List.countP_map]
  by_cases hac : a = c
  · subst hac
    have hsame : ((fun p : String × String => decide (p = (a, s))) ∘
        (fun s2 => (a, s2))) = fun s2 => decide (s2 = s) := by
      funext s2
      simp [Function.comp, Prod.ext_iff]
    rw [hsame, countP_eq_single hss s]
    simp
  · have hzero : ((fun p : String × String => decide (p = (c, s))) ∘
        (fun s2 => (a, s2))) = fun _ => false := by
      funext s2
      simp [Function.comp, Prod.ext_iff, hac]
    rw [hzero]
    simp [hac]

theorem countP_flatMap_pair {cs ss : List String} (hcs : cs.Nodup)
    (hss : ss.Nodup) (c s : String) :
    (cs.flatMap (fun c2 => ss.map (fun s2 => (c2, s2)))).countP
        (fun p => decide (p = (c, s)))
      = if c ∈ cs ∧ s ∈ ss then 1 else 0 := by
  induction cs with
  | nil => simp
  | cons a cs ih =>
    simp only [List.flatMap_cons, List.countP_append]
    rw [countP_map_pair hss a c s, ih (List.nodup_cons.mp hcs).2]
    by_cases hac : a = c
    · subst hac
      have hnotin : a ∉ cs := (List.nodup_cons.mp hcs).1
      by_cases hs : s ∈ ss <;> simp [hs, hnotin]
    · simp only [hac, false_and, if_false, Nat.zero_add]
      by_cases hc : c ∈ cs <;> simp [hc, hac, Ne.symm hac]

/-- C5. In by-source mode the pre-limit rows are dense over
universe × selected sources — every (country, source) combination appears
exactly once, zero-filled if absent — and for each universe country the sum of
its by-source counts is exactly that country's flat-mode count (its row of the
flat table for the identical query). -/
theorem claim_C5_by_source (sites : List RootServerAnalyzer.Site)
    (selected_sources selected_countries blacklisted : List String)
    (selected_month : RootServerAnalyzer.Date)
    (hss : selected_sources.Nodup) :
    (∀ c s, ((by_source_rows sites selected_sources selected_countries
        blacklisted selected_month).map (fun r => (r.1, r.2.1))).countP
          (fun p => decide (p = (c, s)))
      = if c ∈ matching_countries sites selected_sources selected_countries
            blacklisted ∧ s ∈ selected_sources
        then 1 else 0) ∧
    (∀ c ∈ matching_countries sites selected_sources selected_countries
        blacklisted,
      (((by_source_rows sites selected_sources selected_countries blacklisted
          selected_month).filter (fun r => decide (r.1 = c))).map
            (fun r => r.2.2)).sum
        = country_count
            (fully_filtered sites selected_sources
              (matching_countries sites selected_sources selected_countries
                blacklisted) selected_month) c ∧
      (c, (((by_source_rows sites selected_sources selected_countries
          blacklisted selected_month).filter (fun r => decide (r.1 = c))).map
            (fun r => r.2.2)).sum)
        ∈ flat_table sites selected_sources selected_countries blacklisted
            selected_month) := by
  set mc := matching_countries sites selected_sources selected_countries
    blacklisted with hmc
  set f := fully_filtered sites selected_sources mc selected_month with hf
  constructor
  · intro c s
    have hmap : (by_source_rows sites selected_sources selected_countries
        blacklisted selected_month).map (fun r => (r.1, r.2.1))
        = (all_matching_countries mc).flatMap
            (fun c2 => selected_sources.map (fun s2 => (c2, s2))) := by
      simp [by_source_rows, List.map_flatMap, List.map_map, Function.comp_def,
        ← hmc, ← hf]
    have hnodup : (all_matching_countries mc).Nodup := Finset.sort_nodup _ _
    rw [hmap, countP_flatMap_pair hnodup hss]
    simp [all_matching_countries, Finset.mem_sort]
  · intro c hcmem
    have hcs : c ∈ all_matching_countries mc :=
      (Finset.mem_sort _).mpr hcmem
    have hrows : by_source_rows sites selected_sources selected_countries
        blacklisted selected_month
        = (all_matching_countries mc).flatMap
            (fun c2 => selected_sources.map
              (fun s2 => (c2, s2, breakdown_count f c2 s2))) := by
      simp [by_source_rows, ← hmc, ← hf]
    have hkey : ∀ c2 (r : String × String × Nat),
        r ∈ selected_sources.map (fun s2 => (c2, s2, breakdown_count f c2 s2)) →
        r.1 = c2 := by
      intro c2 r hr
      simp only [List.mem_map] at hr
      obtain ⟨s2, _, rfl⟩ := hr
      rfl
    have hfilter : (by_source_rows sites selected_sources selected_countries
        blacklisted selected_month).filter (fun r => decide (r.1 = c))
        = selected_sources.map (fun s2 => (c, s2, breakdown_count f c s2)) := by
      rw [hrows]
      have hnodup : (all_matching_countries mc).Nodup := Finset.sort_nodup _ _
      exact filter_flatMap_key _ _ hkey hnodup hcs
    have hsum : (((by_source_rows sites selected_sources selected_countries
        blacklisted selected_month).filter (fun r => decide (r.1 = c))).map
          (fun r => r.2.2)).sum = country_count f c := by
      rw [hfilter, List.map_map]
      have hcomp : ((fun r : String × String × Nat => r.2.2) ∘
          (fun s2 => (c, s2, breakdown_count f c s2)))
          = fun s2 => breakdown_count f c s2 := rfl
      rw [hcomp]
      set l2 := f.filter (fun r => decide (r.country = some c)) with hl2
      have hbrk : (fun s2 => breakdown_count f c s2)
          = fun s2 => l2.countP (fun r => decide ((some r.source : Option String) = some s2)) := by
        funext s2
        rw [hl2, List.countP_filter]
        unfold breakdown_count
        congr 1
        funext r
        simp [Bool.and_comm]
      rw [hbrk]
      have hpart := sum_countP_partition selected_sources
        (fun r : RootServerAnalyzer.Site => some r.source) hss l2 ?_
      · rw [hpart, hl2]
        unfold country_count
        rw [List.countP_eq_length_filter]
      · intro r hr
        have hrf : r ∈ f := List.mem_of_mem_filter hr
        exact ⟨r.source, rfl, (mem_fully_filtered.mp hrf).2.1⟩
    refine ⟨hsum, ?_⟩
    rw [hsum]
    have : flat_table sites selected_sources selected_countries blacklisted
        selected_month
        = (all_matching_countries mc).map (fun c2 => (c2, country_count f c2)) := by
      simp [flat_table, ← hmc, ← hf]
    rw [this]
    exact List.mem_map.mpr ⟨c, hcs, rfl⟩

/-- Witness for C5 at a concrete query: two sources, one record each, no
allow/deny lists; the (US, root_a.json) combination appears exactly once. -/
theorem claim_C5_by_source_witness :
    ((by_source_rows
        [{ source := "root_a.json", country := some "US",
           created := ⟨2024, 2, 10⟩ },
         { source := "root_b.json", country := some "DE",
           created := ⟨2024, 3, 5⟩ }]
        ["root_a.json", "root_b.json"] [] [] ⟨2024, 6, 1⟩).map
          (fun r => (r.1, r.2.1))).countP
        (fun p => decide (p = ("US", "root_a.json")))
      = if "US" ∈ matching_countries
            [{ source := "root_a.json", country := some "US",
               created := ⟨2024, 2, 10⟩ },
             { source := "root_b.json", country := some "DE",
               created := ⟨2024, 3, 5⟩ }]
            ["root_a.json", "root_b.json"] [] [] ∧
          "root_a.json" ∈ ["root_a.json", "root_b.json"]
        then 1 else 0 :=
  (claim_C5_by_source
    [{ source := "root_a.json", country := some "US",
       created := ⟨2024, 2, 10⟩ },
     { source := "root_b.json", country := some "DE",
       created := ⟨2024, 3, 5⟩ }]
    ["root_a.json", "root_b.json"] [] [] ⟨2024, 6, 1⟩
    (by decide)).1 "US" "root_a.json"

theorem cmp_flat_desc :
    cmp_flat "desc" = fun a b : String × Nat => decide (b.2 ≤ a.2) := by
  funext a b
  simp [cmp_flat]


theorem cex_universe :
    matching_countries
      [{ source := "root_a.json", country := some "US",
         created := ⟨2024, 2, 10⟩ },
       { source := "root_a.json", country := some "DE",
         created := ⟨2024, 3, 5⟩ }]
      ["root_a.json"] [] [] = insert "DE" {"US"} := by
  decide

theorem cex_sorted_universe :
    all_matching_countries (insert "DE" {"US"}) = ["DE", "US"] := by
  unfold all_matching_countries
  rw [Finset.sort_insert]
  · rw [Finset.sort_singleton]
  · intro b hb
    rw [Finset.mem_singleton] at hb
    subst hb
    rw [String.le_iff_toList_le]
    decide
  · decide

theorem cex_flat_table :
    flat_table
      [{ source := "root_a.json", country := some "US",
         created := ⟨2024, 2, 10⟩ },
       { source := "root_a.json", country := some "DE",
         created := ⟨2024, 3, 5⟩ }]
      ["root_a.json"] [] [] ⟨2024, 6, 1⟩ = [("DE", 1), ("US", 1)] := by
  show (all_matching_countries
      (matching_countries
        [{ source := "root_a.json", country := some "US",
           created := ⟨2024, 2, 10⟩ },
         { source := "root_a.json", country := some "DE",
           created := ⟨2024, 3, 5⟩ }]
        ["root_a.json"] [] [])).map
      (fun c => (c, country_count
        (fully_filtered
          [{ source := "root_a.json", country := some "US",
             created := ⟨2024, 2, 10⟩ },
           { source := "root_a.json", country := some "DE",
             created := ⟨2024, 3, 5⟩ }]
          ["root_a.json"]
          (matching_countries
            [{ source := "root_a.json", country := some "US",
               created := ⟨2024, 2, 10⟩ },
             { source := "root_a.json", country := some "DE",
               created := ⟨2024, 3, 5⟩ }]
            ["root_a.json"] [] []) ⟨2024, 6, 1⟩) c))
    = [("DE", 1), ("US", 1)]
  rw [cex_universe, cex_sorted_universe]
  decide

/-- One admissible output of the unstable library sort on the tied table
`[("DE", 1), ("US", 1)]`: the name-descending order. -/
theorem cex_sort_output :
    is_sort_of (cmp_flat "desc")
      (flat_table
        [{ source := "root_a.json", country := some "US",
           created := ⟨2024, 2, 10⟩ },
         { source := "root_a.json", country := some "DE",
           created := ⟨2024, 3, 5⟩ }]
        ["root_a.json"] [] [] ⟨2024, 6, 1⟩)
      [("US", 1), ("DE", 1)] := by
  constructor
  · rw [cex_flat_table]
    exact List.Perm.swap ("DE", 1) ("US", 1) []
  · decide

theorem cex_canonical :
    ((canonical_desc
        (flat_table
          [{ source := "root_a.json", country := some "US",
             created := ⟨2024, 2, 10⟩ },
           { source := "root_a.json", country := some "DE",
             created := ⟨2024, 3, 5⟩ }]
          ["root_a.json"] [] [] ⟨2024, 6, 1⟩)).take 1).map Prod.fst
      = ["DE"] := by
  rw [cex_flat_table]
  have hle : (("DE" : String) ≤ "US") := by
    rw [String.le_iff_toList_le]
    decide
  have hsorted : List.Pairwise (fun a b => cmp_desc_name a b = true)
      [(("DE" : String), 1), ("US", 1)] := by
    refine List.pairwise_pair.mpr ?_
    simp [cmp_desc_name, hle]
  rw [show canonical_desc [(("DE" : String), 1), ("US", 1)]
      = [(("DE" : String), 1), ("US", 1)] from
    List.mergeSort_of_sorted hsorted]
  rfl

theorem cex_by_source_rows :
    by_source_rows
      [{ source := "root_a.json", country := some "US",
         created := ⟨2024, 2, 10⟩ },
       { source := "root_a.json", country := some "DE",
         created := ⟨2024, 3, 5⟩ }]
      ["root_a.json"] [] [] ⟨2024, 6, 1⟩
      = [("DE", "root_a.json", 1), ("US", "root_a.json", 1)] := by
  show (all_matching_countries
      (matching_countries
        [{ source := "root_a.json", country := some "US",
           created := ⟨2024, 2, 10⟩ },
         { source := "root_a.json", country := some "DE",
           created := ⟨2024, 3, 5⟩ }]
        ["root_a.json"] [] [])).flatMap
      (fun c => ["root_a.json"].map (fun s => (c, s, breakdown_count
        (fully_filtered
          [{ source := "root_a.json", country := some "US",
             created := ⟨2024, 2, 10⟩ },
           { source := "root_a.json", country := some "DE",
             created := ⟨2024, 3, 5⟩ }]
          ["root_a.json"]
          (matching_countries
            [{ source := "root_a.json", country := some "US",
               created := ⟨2024, 2, 10⟩ },
             { source := "root_a.json", country := some "DE",
               created := ⟨2024, 3, 5⟩ }]
            ["root_a.json"] [] []) ⟨2024, 6, 1⟩) c s)))
    = [("DE", "root_a.json", 1), ("US", "root_a.json", 1)]
  rw [cex_universe, cex_sorted_universe]
  decide

theorem cex_totals :
    country_totals
      [{ source := "root_a.json", country := some "US",
         created := ⟨2024, 2, 10⟩ },
       { source := "root_a.json", country := some "DE",
         created := ⟨2024, 3, 5⟩ }]
      ["root_a.json"] [] [] ⟨2024, 6, 1⟩ = [("DE", 1), ("US", 1)] := by
  show (all_matching_countries
      (matching_countries
        [{ source := "root_a.json", country := some "US",
           created := ⟨2024, 2, 10⟩ },
         { source := "root_a.json", country := some "DE",
           created := ⟨2024, 3, 5⟩ }]
        ["root_a.json"] [] [])).map
      (fun c => (c, (((by_source_rows
        [{ source := "root_a.json", country := some "US",
           created := ⟨2024, 2, 10⟩ },
         { source := "root_a.json", country := some "DE",
           created := ⟨2024, 3, 5⟩ }]
        ["root_a.json"] [] [] ⟨2024, 6, 1⟩).filter
          (fun r => decide (r.1 = c))).map (fun r => r.2.2)).sum))
    = [("DE", 1), ("US", 1)]
  rw [cex_by_source_rows, cex_universe, cex_sorted_universe]
  decide

theorem cex_totals_sort_of :
    is_sort_of (cmp_flat "desc")
      (country_totals
        [{ source := "root_a.json", country := some "US",
           created := ⟨2024, 2, 10⟩ },
         { source := "root_a.json", country := some "DE",
           created := ⟨2024, 3, 5⟩ }]
        ["root_a.json"] [] [] ⟨2024, 6, 1⟩)
      [("DE", 1), ("US", 1)] := by
  constructor
  · rw [cex_totals]
  · decide

/-- Anything kept by the head-of-list truncation of a count-descending order
dominates everything that is dropped. -/
theorem sort_of_take_le {input output : List (String × Nat)} {n : Nat}
    (h : is_sort_of (cmp_flat "desc") input output) :
    ∀ p ∈ output.take n, ∀ q ∈ input, q ∉ output.take n → q.2 ≤ p.2 := by
  intro p hp q hq hqn
  have hqo : q ∈ output := h.1.mem_iff.mpr hq
  have hsplit := List.take_append_drop n output
  have hqdrop : q ∈ output.drop n := by
    rcases List.mem_append.mp (by rw [hsplit]; exact hqo) with h1 | h1
    · exact absurd h1 hqn
    · exact h1
  have hpw := h.2
  rw [← hsplit] at hpw
  have hcross := (List.pairwise_append.mp hpw).2.2 p hp q hqdrop
  rw [cmp_flat_desc] at hcross
  simpa using hcross

theorem flat_table_map_fst (sites : List RootServerAnalyzer.Site)
    (selected_sources selected_countries blacklisted : List String)
    (selected_month : RootServerAnalyzer.Date) :
    (flat_table sites selected_sources selected_countries blacklisted
        selected_month).map Prod.fst
      = all_matching_countries
          (matching_countries sites selected_sources selected_countries
            blacklisted) := by
  simp [flat_table, List.map_map, Function.comp_def]

/-- C6 counterexample: a query whose universe is the tied table
[(DE, 1), (US, 1)]. The name-descending order [(US, 1), (DE, 1)] is a valid
output of the unstable library sort (a count-descending permutation of the
table), and with limit 1 it returns US — not DE, the country that the
claimed name-ascending tie-break (the canonical ordering) selects. -/
theorem claim_C6_counterexample :
    is_sort_of (cmp_flat "desc")
      (flat_table
        [{ source := "root_a.json", country := some "US",
           created := ⟨2024, 2, 10⟩ },
         { source := "root_a.json", country := some "DE",
           created := ⟨2024, 3, 5⟩ }]
        ["root_a.json"] [] [] ⟨2024, 6, 1⟩)
      [("US", 1), ("DE", 1)] ∧
    (flat_result_of [("US", 1), ("DE", 1)] (some 1)).map Prod.fst = ["US"] ∧
    ((canonical_desc
        (flat_table
          [{ source := "root_a.json", country := some "US",
             created := ⟨2024, 2, 10⟩ },
           { source := "root_a.json", country := some "DE",
             created := ⟨2024, 3, 5⟩ }]
          ["root_a.json"] [] [] ⟨2024, 6, 1⟩)).take 1).map Prod.fst = ["DE"] ∧
    (["US"] : List String) ≠ ["DE"] :=
  ⟨cex_sort_output, by decide, cex_canonical, by decide⟩

/-- C6, amended: for a descending query with positive limit N, whatever
comparator-respecting order the library sort returns (pandas' default
quicksort fixes no tie order), the flat-mode result is the first N rows of
that order: min(N, universe size) rows with pairwise-distinct countries drawn
from the pre-limit table, every returned count at least every excluded
count — the N highest counts, with ties resolved by the library's order, not
necessarily by country name; and in by-source mode the limit keeps exactly
the rows whose country is among the first N countries of the sorted totals,
removing whole countries and never individual (country, source) cells. -/
theorem claim_C6_amended (sites : List RootServerAnalyzer.Site)
    (selected_sources selected_countries blacklisted : List String)
    (selected_month : RootServerAnalyzer.Date) (n : Nat) (hn : 0 < n)
    (sorted_df sorted_totals : List (String × Nat))
    (hdf : is_sort_of (cmp_flat "desc")
      (flat_table sites selected_sources selected_countries blacklisted
        selected_month) sorted_df)
    (htot : is_sort_of (cmp_flat "desc")
      (country_totals sites selected_sources selected_countries blacklisted
        selected_month) sorted_totals) :
    (flat_result_of sorted_df (some n)).length
      = min n (flat_table sites selected_sources selected_countries blacklisted
          selected_month).length ∧
    ((flat_result_of sorted_df (some n)).map Prod.fst).Nodup ∧
    (∀ p ∈ flat_result_of sorted_df (some n),
      p ∈ flat_table sites selected_sources selected_countries blacklisted
        selected_month) ∧
    (∀ p ∈ flat_result_of sorted_df (some n),
      ∀ q ∈ flat_table sites selected_sources selected_countries blacklisted
        selected_month,
      q ∉ flat_result_of sorted_df (some n) → q.2 ≤ p.2) ∧
    (∀ p ∈ sorted_totals.take n,
      ∀ q ∈ country_totals sites selected_sources selected_countries
        blacklisted selected_month,
      q ∉ sorted_totals.take n → q.2 ≤ p.2) ∧
    (∀ r ∈ by_source_rows sites selected_sources selected_countries blacklisted
        selected_month,
      (r ∈ by_source_limited_of
          (by_source_rows sites selected_sources selected_countries blacklisted
            selected_month) sorted_totals (some n) ↔
        r.1 ∈ (sorted_totals.take n).map Prod.fst)) := by
  have hres : flat_result_of sorted_df (some n) = sorted_df.take n := by
    simp [flat_result_of, apply_limit, hn]
  refine ⟨?_, ?_, ?_, ?_, ?_, ?_⟩
  · rw [hres, List.length_take, hdf.1.length_eq]
  · rw [hres, List.map_take]
    apply List.Nodup.sublist (List.take_sublist n _)
    apply (hdf.1.map Prod.fst).nodup_iff.mpr
    rw [flat_table_map_fst]
    exact Finset.sort_nodup _ _
  · intro p hp
    rw [hres] at hp
    exact hdf.1.subset (List.take_subset n _ hp)
  · intro p hp q hq hqn
    rw [hres] at hp hqn
    exact sort_of_take_le hdf p hp q hq hqn
  · exact fun p hp q hq hqn => sort_of_take_le htot p hp q hq hqn
  · intro r hr
    simp [by_source_limited_of, if_pos hn, List.mem_filter, hr]

/-- Witness for C6 (amended) at the concrete tied query, limit 1 and the
name-descending admissible sort output. -/
theorem claim_C6_amended_witness :
    (flat_result_of [("US", 1), ("DE", 1)] (some 1)).length
      = min 1 (flat_table
          [{ source := "root_a.json", country := some "US",
             created := ⟨2024, 2, 10⟩ },
           { source := "root_a.json", country := some "DE",
             created := ⟨2024, 3, 5⟩ }]
          ["root_a.json"] [] [] ⟨2024, 6, 1⟩).length :=
  (claim_C6_amended
    [{ source := "root_a.json", country := some "US",
       created := ⟨2024, 2, 10⟩ },
     { source := "root_a.json", country := some "DE",
       created := ⟨2024, 3, 5⟩ }]
    ["root_a.json"] [] [] ⟨2024, 6, 1⟩ 1 (by decide)
    [("US", 1), ("DE", 1)] [("DE", 1), ("US", 1)]
    cex_sort_output cex_totals_sort_of).1
